import Mathlib

/-!
Shallow embedding of the `python-rate-limiter` repository
(`rate_limiter/definitions.py`, `rate_limiter/in_memory.py`,
`rate_limiter/in_redis.py`, `rate_limiter/service.py`).

Python dictionaries are embedded as insertion-ordered association lists,
Python `int` timestamps as `Int`, and code that can raise as
`Except String`.  The clock value `now` (`time.time()`, a nonnegative float)
is embedded at whole-second granularity as an `Int`; the only use the code
makes of `now` is the floor division `int(now // seconds_per_bucket)`, which
on integers is exactly `Int.fdiv`.  The store interface `IState` is a record
of the two operations; each operation returns its result (or the raised
error's message) together with the post-call state, mirroring in-place
mutation.
-/

deriving instance DecidableEq for Except

/-- `Window` enum from `definitions.py`. -/
inductive Window : Type
  | second
  | minute
  | hour
  | day
  | month
  | year
  deriving DecidableEq

/-- `Window(window)` constructor lookup: maps the string value to the enum
member, `none` when the string is unrecognized (Python raises `ValueError`). -/
def Window.ofString? : String → Option Window
  | "second" => some .second
  | "minute" => some .minute
  | "hour" => some .hour
  | "day" => some .day
  | "month" => some .month
  | "year" => some .year
  | _ => none

/-- `RateLimiter.WINDOW_BUCKETS_LIMITS` from `definitions.py`. -/
def WINDOW_BUCKETS_LIMITS : Window → Nat
  | .second => 60
  | .minute => 60
  | .hour => 60
  | .day => 24
  | .month => 30
  | .year => 12

/-- A constructed `RateLimiter` object (its `__slots__` fields). -/
structure RateLimiter : Type where
  id_or_name : String
  endpoint_name_filter : Option String
  app_name_filter : Option String
  user_filter : Bool
  limit : Nat
  window : Window
  window_buckets : Nat
  deriving DecidableEq

/-- `RateLimiter.__init__` from `definitions.py`: parses the window string
(`ValueError` on an unrecognized value), forces `window_buckets` to 1 for a
second window, then rejects an effective bucket count above the per-window
maximum. -/
def RateLimiter.mk? (id_or_name : String) (endpoint_name_filter : Option String)
    (app_name_filter : Option String) (user_filter : Bool) (limit : Nat)
    (window : String) (window_buckets : Nat) : Except String RateLimiter :=
  match Window.ofString? window with
  | none => .error ("ValueError: " ++ window ++ " is not a valid Window")
  | some w =>
    let window_buckets := if w = Window.second then 1 else window_buckets
    if window_buckets > WINDOW_BUCKETS_LIMITS w then
      .error "ValueError: Unsupported buckets number"
    else
      .ok { id_or_name := id_or_name
            endpoint_name_filter := endpoint_name_filter
            app_name_filter := app_name_filter
            user_filter := user_filter
            limit := limit
            window := w
            window_buckets := window_buckets }

/-- `Request` named tuple from `definitions.py`. -/
structure Request : Type where
  app_id : String
  user_id : String
  endpoint : String
  deriving DecidableEq

/-- `WindowRange` named tuple from `definitions.py` (`Timestamp = int`). -/
structure WindowRange : Type where
  current_bucket : Int
  first_bucket : Int
  lifetime : Nat
  deriving DecidableEq

/-- Bucket counters of one domain key: Python `dict[str, int]` as an
insertion-ordered association list. -/
abbrev Buckets := List (String × Nat)

/-- `ProcessState.state`: Python `dict[str, dict[str, int]]`. -/
abbrev ProcessState := List (String × Buckets)

/-- First-match association list lookup (Python `dict` access). -/
def alist.find {α : Type} : List (String × α) → String → Option α
  | [], _ => none
  | (k, v) :: rest, key => if k = key then some v else alist.find rest key

/-- In-place update of a key's value, appending when absent (Python
`d[k] = v` keeps an existing key's position and appends a new key). -/
def alist.setKey {α : Type} : List (String × α) → String → α → List (String × α)
  | [], k, v => [(k, v)]
  | (k', v') :: rest, k, v =>
    if k' = k then (k, v) :: rest else (k', v') :: alist.setKey rest k v

/-- `d.pop(k)` ignoring a missing key: removes the first (hence, for a dict,
the only) entry with the given key. -/
def alist.delKey {α : Type} : List (String × α) → String → List (String × α)
  | [], _ => []
  | (k', v) :: rest, k => if k' = k then rest else (k', v) :: alist.delKey rest k

/-- `domain_buckets[b] += 1` on a `defaultdict(int)`: increments an existing
key in place, otherwise appends the key with count 1. -/
def bumpBucket : Buckets → String → Buckets
  | [], b => [(b, 1)]
  | (k, v) :: rest, b =>
    if k = b then (k, v + 1) :: rest else (k, v) :: bumpBucket rest b

/-- The `IState` protocol from `definitions.py`.  Each operation returns the
Python return value (or the raised exception's message) paired with the state
after the call. -/
structure IState (σ : Type) : Type where
  hit_and_collect_counters : σ → String → WindowRange → Except String Buckets × σ
  expire_buckets : σ → String → List String → Except String Unit × σ

/-- `ProcessState.hit_and_collect_counters` from `in_memory.py`:
`setdefault` the domain key, increment the current bucket, return the domain
key's (updated) bucket dict. -/
def ProcessState.hit_and_collect_counters (st : ProcessState) (domain_key : String)
    (window_range : WindowRange) : Except String Buckets × ProcessState :=
  let domain_buckets := (alist.find st domain_key).getD []
  let updated := bumpBucket domain_buckets (toString window_range.current_bucket)
  (.ok updated, alist.setKey st domain_key updated)

/-- `ProcessState.expire_buckets` from `in_memory.py`: returns immediately
when the domain key is absent or its dict is falsy (empty); otherwise pops
each named bucket, ignoring `KeyError`. -/
def ProcessState.expire_buckets (st : ProcessState) (domain_key : String)
    (buckets : List String) : Except String Unit × ProcessState :=
  match alist.find st domain_key with
  | none => (.ok (), st)
  | some domain_buckets =>
    if domain_buckets = [] then (.ok (), st)
    else (.ok (), alist.setKey st domain_key (buckets.foldl alist.delKey domain_buckets))

/-- The in-memory store as an `IState` (never raises). -/
def inMemory : IState ProcessState :=
  { hit_and_collect_counters := ProcessState.hit_and_collect_counters
    expire_buckets := ProcessState.expire_buckets }

/-- The Redis server's hash keyspace: hash key → (field → integer value). -/
abbrev RedisHashes := List (String × Buckets)

/-- `HDEL key f`, modelled from the Redis command semantics used by
`in_redis.py`: deletes the field from the hash if present, no-op otherwise. -/
def RedisHashes.hdel (st : RedisHashes) (key : String) (field : String) : RedisHashes :=
  match alist.find st key with
  | none => st
  | some h => alist.setKey st key (alist.delKey h field)

/-- `RedisState.expire_buckets` from `in_redis.py`: does nothing on a falsy
(empty) bucket list, otherwise `HDEL`s every named field of the domain key's
hash. -/
def RedisState.expire_buckets (st : RedisHashes) (domain_key : String)
    (buckets : List String) : Except String Unit × RedisHashes :=
  if buckets = [] then (.ok (), st)
  else (.ok (), buckets.foldl (fun s b => RedisHashes.hdel s domain_key b) st)

/-- `_NOT_LIMITED_BY_ENDPOINT_NAME` from `service.py`. -/
def _NOT_LIMITED_BY_ENDPOINT_NAME : String := "~anyendpoint"

/-- `_NOT_LIMITED_BY_APP_NAME` from `service.py`. -/
def _NOT_LIMITED_BY_APP_NAME : String := "~anyapp"

/-- `_NOT_LIMITED_BY_USER` from `service.py`. -/
def _NOT_LIMITED_BY_USER : String := "~anyuser"

/-- `_SECONDS_IN_WINDOW_SIZE` from `service.py`. -/
def _SECONDS_IN_WINDOW_SIZE : Window → Nat
  | .second => 1
  | .minute => 60
  | .hour => 60 * 60
  | .day => 60 * 60 * 24
  | .month => 60 * 60 * 24 * 30
  | .year => 60 * 60 * 24 * 365

/-- Python truthiness of an `Optional[str]`: `None` and `""` are falsy. -/
def strTruthy : Option String → Bool
  | none => false
  | some s => !(s = "")

/-- `f or default` on an `Optional[str]` operand, as used in
`_get_counter_domain_key`. -/
def pyStrOr (s : Option String) (default : String) : String :=
  match s with
  | none => default
  | some v => if v = "" then default else v

/-- One guard of `_match`: `rl.<filter> and rl.<filter> != value`. -/
def filterBlocks (f : Option String) (value : String) : Bool :=
  match f with
  | none => false
  | some v => if v = "" then false else !(v = value)

/-- `_match` from `service.py`. -/
def _match (rate_limiter : RateLimiter) (request : Request) : Bool :=
  if filterBlocks rate_limiter.endpoint_name_filter request.endpoint then false
  else if filterBlocks rate_limiter.app_name_filter request.app_id then false
  else true

/-- `_get_counter_domain_key` from `service.py`. -/
def _get_counter_domain_key (rl : RateLimiter) (request : Request) : String :=
  let endpoint_name := pyStrOr rl.endpoint_name_filter _NOT_LIMITED_BY_ENDPOINT_NAME
  let app_name := pyStrOr rl.app_name_filter _NOT_LIMITED_BY_APP_NAME
  let user_id := if rl.user_filter then request.user_id else _NOT_LIMITED_BY_USER
  "LIMIT:" ++ rl.id_or_name ++ ":" ++ app_name ++ ":" ++ endpoint_name ++ ":" ++ user_id

/-- `_get_window_range` from `service.py`.  `int(now // seconds_per_bucket)`
is floor division, `Int.fdiv`.  The two `ZeroDivisionError` sites
(`secs // window_buckets` with zero buckets, `now // seconds_per_bucket`
with a zero-sized bucket) become `.error`. -/
def _get_window_range (now : Int) (rl : RateLimiter) : Except String WindowRange :=
  if rl.window_buckets = 0 then .error "ZeroDivisionError"
  else
    let seconds_per_bucket : Nat := _SECONDS_IN_WINDOW_SIZE rl.window / rl.window_buckets
    if seconds_per_bucket = 0 then .error "ZeroDivisionError"
    else
      let current_serial_bucket_pos : Int := Int.fdiv now seconds_per_bucket
      .ok { current_bucket := current_serial_bucket_pos * seconds_per_bucket
            first_bucket :=
              (current_serial_bucket_pos - (rl.window_buckets : Int) + 1) * seconds_per_bucket
            lifetime := rl.window_buckets * seconds_per_bucket }

/-- All-digit decimal parse, the unsigned core of Python `int(str)`. -/
def parsePyNat? (l : List Char) : Option Nat :=
  if l = [] then none
  else if l.all (fun c => c.isDigit) then
    some (l.foldl (fun n c => n * 10 + (c.toNat - Char.toNat '0')) 0)
  else none

/-- Helper for `pyInt?`, working on the string's character list. -/
def pyIntList? : List Char → Option Int
  | [] => none
  | c :: rest =>
    if c = '-' then (parsePyNat? rest).map (fun n => -(n : Int))
    else (parsePyNat? (c :: rest)).map (fun n => (n : Int))

/-- Python `int(s)` on a string: an optional leading minus sign followed by
decimal digits, `none` (`ValueError`) otherwise.  (Python also tolerates
surrounding whitespace, a `+` sign and `_` digit separators; none of those
forms is ever produced by `str(int)`, the only writer of bucket ids.) -/
def pyInt? (s : String) : Option Int :=
  pyIntList? s.data

/-- The counter-scanning loop of `_hit`: walks the returned buckets in
order, parsing each bucket id with `Timestamp(bucket)` (a failed parse raises
`ValueError`), splitting them into the expired list and the in-window total. -/
def collectHits (first_bucket : Int) : Buckets → Except String (Nat × List String)
  | [] => .ok (0, [])
  | (bucket, hits) :: rest =>
    match pyInt? bucket with
    | none => .error ("ValueError: invalid literal for int: " ++ bucket)
    | some ts =>
      match collectHits first_bucket rest with
      | .error e => .error e
      | .ok (total, expired) =>
        if ts < first_bucket then .ok (total, bucket :: expired)
        else .ok (total + hits, expired)

/-- `_hit` from `service.py`: the whole body runs under `try`; any raised
error is logged and the function returns `True` (fail-open), keeping whatever
state mutations already happened. -/
def _hit {σ : Type} (S : IState σ) (st : σ) (now : Int) (rl : RateLimiter)
    (request : Request) : Bool × σ :=
  match _get_window_range now rl with
  | .error _ => (true, st)
  | .ok window_range =>
    let domain_key := _get_counter_domain_key rl request
    match S.hit_and_collect_counters st domain_key window_range with
    | (.error _, st') => (true, st')
    | (.ok counters, st') =>
      match collectHits window_range.first_bucket counters with
      | .error _ => (true, st')
      | .ok (total_hits, expired) =>
        match S.expire_buckets st' domain_key expired with
        | (.error _, st'') => (true, st'')
        | (.ok _, st'') => (decide (total_hits ≤ rl.limit), st'')

/-- The lazy `all(_hit ... for rl in sorted_limits if _match ...)` of
`is_limit_reached`: evaluates matching limiters left to right, stopping at
the first one that is not within limit. -/
def hitAll {σ : Type} (S : IState σ) (st : σ) (now : Int) (request : Request) :
    List RateLimiter → Bool × σ
  | [] => (true, st)
  | rl :: rest =>
    if _match rl request then
      match _hit S st now rl request with
      | (true, st') => hitAll S st' now request rest
      | (false, st') => (false, st')
    else hitAll S st now request rest

/-- `is_limit_reached` from `service.py`: sorts limiters ascending by
`limit`, samples `now` once (here a parameter), and negates the lazy
conjunction.  Python `sorted` is a stable sort and a stable ascending sort
has exactly one possible output, so the stable `List.insertionSort` embeds
it exactly. -/
def is_limit_reached {σ : Type} (S : IState σ) (st : σ)
    (rate_limits : List RateLimiter) (request : Request) (now : Int) : Bool × σ :=
  let sorted := rate_limits.insertionSort (fun a b => a.limit ≤ b.limit)
  let result := hitAll S st now request sorted
  (!result.1, result.2)

/-- `n` successive calls of `is_limit_reached` with a fixed clock, threading
the store state. -/
def iterCalls {σ : Type} (S : IState σ) (rate_limits : List RateLimiter)
    (request : Request) (now : Int) : Nat → σ → σ
  | 0, st => st
  | n + 1, st =>
    iterCalls S rate_limits request now n (is_limit_reached S st rate_limits request now).2

/-!
Decimal round trip: `str(int)` output (`toString : Int → String`, i.e.
`Nat.toDigits 10`) parses back under `pyInt?` to the original value.  This
is what makes a bucket id written by `hit_and_collect_counters` readable by
`Timestamp(bucket)` in `_hit`.
-/

/-- Decimal digit list of `n`, most significant digit first: a functional
specification of `Nat.toDigits 10`. -/
def decDigits (n : Nat) : List Char :=
  if h : n < 10 then [Nat.digitChar n]
  else
    have : n / 10 < n := Nat.div_lt_self (by omega) (by omega)
    decDigits (n / 10) ++ [Nat.digitChar (n % 10)]

lemma digitChar_isDigit {d : Nat} (h : d < 10) : (Nat.digitChar d).isDigit = true := by
  interval_cases d <;> decide

lemma digitChar_val {d : Nat} (h : d < 10) :
    (Nat.digitChar d).toNat - Char.toNat '0' = d := by
  interval_cases d <;> decide

lemma digitChar_val48 {d : Nat} (h : d < 10) : (Nat.digitChar d).toNat - 48 = d := by
  interval_cases d <;> decide

lemma isDigit_ne_minus {c : Char} (h : c.isDigit = true) : c ≠ '-' := by
  intro rfl_eq
  subst rfl_eq
  simp at h

lemma decDigits_ne_nil (n : Nat) : decDigits n ≠ [] := by
  rw [decDigits]
  split
  · simp
  · intro hcontra
    rcases List.append_eq_nil.mp hcontra with ⟨_, hr⟩
    exact List.cons_ne_nil _ _ hr

lemma decDigits_isDigit (n : Nat) : ∀ c ∈ decDigits n, c.isDigit = true := by
  induction n using Nat.strong_induction_on with
  | _ n ih =>
    rw [decDigits]
    split
    · next h =>
      intro c hc
      simp only [List.mem_singleton] at hc
      exact hc ▸ digitChar_isDigit h
    · next h =>
      intro c hc
      rcases List.mem_append.mp hc with hmem | hmem
      · exact ih (n / 10) (Nat.div_lt_self (by omega) (by omega)) c hmem
      · simp only [List.mem_singleton] at hmem
        exact hmem ▸ digitChar_isDigit (Nat.mod_lt n (by omega))

lemma foldl_decDigits (n : Nat) :
    ∀ a : Nat,
      List.foldl (fun m c => m * 10 + (c.toNat - Char.toNat '0')) a (decDigits n)
        = a * 10 ^ (decDigits n).length + n := by
  induction n using Nat.strong_induction_on with
  | _ n ih =>
    intro a
    rw [decDigits]
    split
    · next h =>
      simp only [List.foldl, List.length_singleton, pow_one]
      have hv := digitChar_val48 h
      have h0 : Char.toNat '0' = 48 := rfl
      rw [h0]
      omega
    · next h =>
      have hlt : n / 10 < n := Nat.div_lt_self (by omega) (by omega)
      rw [List.foldl_append, ih (n / 10) hlt a]
      simp only [List.foldl, List.length_append, List.length_singleton]
      rw [digitChar_val (Nat.mod_lt n (by omega))]
      have hdm := Nat.div_add_mod n 10
      rw [pow_succ]
      ring_nf
      omega

lemma toDigitsCore_eq_decDigits :
    ∀ (f n : Nat) (acc : List Char), n < f →
      Nat.toDigitsCore 10 f n acc = decDigits n ++ acc := by
  intro f
  induction f with
  | zero => intro n acc h; omega
  | succ f ih =>
    intro n acc h
    rw [Nat.toDigitsCore]
    by_cases hz : n / 10 = 0
    · have hn : n < 10 := by omega
      rw [if_pos hz, decDigits, dif_pos hn, Nat.mod_eq_of_lt hn]
      rfl
    · have hn : ¬n < 10 := fun hlt => hz (Nat.div_eq_of_lt hlt)
      have hlt : n / 10 < f := by
        have h1 : n / 10 < n := Nat.div_lt_self (by omega) (by omega)
        omega
      rw [if_neg hz, ih (n / 10) _ hlt]
      conv_rhs => rw [decDigits]
      rw [dif_neg hn, List.append_assoc]
      rfl

lemma toDigits_eq_decDigits (n : Nat) : Nat.toDigits 10 n = decDigits n := by
  rw [Nat.toDigits, toDigitsCore_eq_decDigits (n + 1) n [] (Nat.lt_succ_self n),
    List.append_nil]

lemma parsePyNat_decDigits (n : Nat) : parsePyNat? (decDigits n) = some n := by
  rw [parsePyNat?, if_neg (decDigits_ne_nil n)]
  rw [if_pos (List.all_eq_true.mpr (fun c hc => decDigits_isDigit n c hc))]
  rw [foldl_decDigits n 0]
  simp

lemma data_repr (n : Nat) : (Nat.repr n).data = decDigits n := by
  rw [Nat.repr, toDigits_eq_decDigits]
  rfl

/-- `str` ∘ `int` round trip for nonnegative timestamps: a bucket id written
by the store is parsed back by `Timestamp(bucket)` to the same integer. -/
theorem pyInt_toString (i : Int) (hi : 0 ≤ i) : pyInt? (toString i) = some i := by
  obtain ⟨m, rfl⟩ := Int.eq_ofNat_of_zero_le hi
  show pyInt? (toString (Int.ofNat m)) = some (Int.ofNat m)
  have hts : toString (Int.ofNat m) = Nat.repr m := rfl
  rw [hts, pyInt?]
  have hdata : (Nat.repr m).data = decDigits m := data_repr m
  rcases hd : decDigits m with _ | ⟨c, rest⟩
  · exact absurd hd (decDigits_ne_nil m)
  · rw [hdata, hd, pyIntList?]
    have hc : c.isDigit = true := decDigits_isDigit m c (hd ▸ List.mem_cons_self c rest)
    rw [if_neg (isDigit_ne_minus hc)]
    rw [← hd, parsePyNat_decDigits m]
    rfl

/-! Association-list (Python dict) lemmas. -/

lemma alist.find_setKey_self {α : Type} (st : List (String × α)) (k : String) (v : α) :
    alist.find (alist.setKey st k v) k = some v := by
  induction st with
  | nil => simp [alist.setKey, alist.find]
  | cons p rest ih =>
    obtain ⟨k', v'⟩ := p
    by_cases hk : k' = k
    · simp [alist.setKey, hk, alist.find]
    · simp [alist.setKey, hk, alist.find, ih]

lemma alist.find_setKey_ne {α : Type} (st : List (String × α)) (k k' : String) (v : α)
    (hk : k' ≠ k) : alist.find (alist.setKey st k v) k' = alist.find st k' := by
  have hk' : ¬(k = k') := fun h => hk h.symm
  induction st with
  | nil => simp [alist.setKey, alist.find, hk']
  | cons p rest ih =>
    obtain ⟨k₀, v₀⟩ := p
    by_cases h0 : k₀ = k
    · subst h0
      simp [alist.setKey, alist.find, hk', hk]
    · by_cases h1 : k₀ = k'
      · simp [alist.setKey, h0, alist.find, h1, hk, hk']
      · simp [alist.setKey, h0, alist.find, h1, ih]

lemma alist.setKey_setKey {α : Type} (st : List (String × α)) (k : String) (v w : α) :
    alist.setKey (alist.setKey st k v) k w = alist.setKey st k w := by
  induction st with
  | nil => simp [alist.setKey]
  | cons p rest ih =>
    obtain ⟨k₀, v₀⟩ := p
    by_cases h0 : k₀ = k
    · simp [alist.setKey, h0]
    · simp [alist.setKey, h0, ih]

lemma alist.setKey_self {α : Type} (st : List (String × α)) (k : String) (v : α)
    (h : alist.find st k = some v) : alist.setKey st k v = st := by
  induction st with
  | nil => simp [alist.find] at h
  | cons p rest ih =>
    obtain ⟨k₀, v₀⟩ := p
    by_cases h0 : k₀ = k
    · subst h0
      simp [alist.find] at h
      simp [alist.setKey, h]
    · simp [alist.find, h0] at h
      simp [alist.setKey, h0, ih h]

lemma alist.delKey_absent {α : Type} (db : List (String × α)) (b : String)
    (h : alist.find db b = none) : alist.delKey db b = db := by
  induction db with
  | nil => simp [alist.delKey]
  | cons p rest ih =>
    obtain ⟨k₀, v₀⟩ := p
    by_cases h0 : k₀ = b
    · simp [alist.find, h0] at h
    · simp [alist.find, h0] at h
      simp [alist.delKey, h0, ih h]

lemma foldl_delKey_absent {α : Type} (bs : List String) (db : List (String × α))
    (h : ∀ b ∈ bs, alist.find db b = none) : bs.foldl alist.delKey db = db := by
  induction bs with
  | nil => rfl
  | cons b rest ih =>
    have hb : alist.delKey db b = db := alist.delKey_absent db b (h b (by simp))
    simp only [List.foldl, hb]
    exact ih (fun x hx => h x (by simp [hx]))

lemma alist.find_eq_none_of_not_mem {α : Type} (db : List (String × α)) (k : String)
    (h : k ∉ db.map Prod.fst) : alist.find db k = none := by
  induction db with
  | nil => rfl
  | cons p rest ih =>
    obtain ⟨k₀, v₀⟩ := p
    simp only [List.map_cons, List.mem_cons, not_or] at h
    rw [alist.find, if_neg (fun hc => h.1 hc.symm)]
    exact ih h.2

lemma alist.find_delKey_self {α : Type} (db : List (String × α)) (b : String)
    (hnd : (db.map Prod.fst).Nodup) : alist.find (alist.delKey db b) b = none := by
  induction db with
  | nil => rfl
  | cons p rest ih =>
    obtain ⟨k₀, v₀⟩ := p
    simp only [List.map_cons, List.nodup_cons] at hnd
    by_cases h0 : k₀ = b
    · subst h0
      rw [alist.delKey, if_pos rfl]
      exact alist.find_eq_none_of_not_mem rest k₀ hnd.1
    · rw [alist.delKey, if_neg h0, alist.find, if_neg h0]
      exact ih hnd.2

lemma bumpBucket_ne_nil (db : Buckets) (b : String) : bumpBucket db b ≠ [] := by
  cases db with
  | nil => simp [bumpBucket]
  | cons p rest =>
    obtain ⟨k, v⟩ := p
    by_cases hk : k = b <;> simp [bumpBucket, hk]

/-! Window-arithmetic facts for well-formed limiter configurations. -/

/-- The bucket-count bound together with the forced single bucket for a
second window (both established by `RateLimiter.__init__` whenever the
requested count is positive) keeps `seconds_per_bucket` positive. -/
lemma seconds_per_bucket_pos (rl : RateLimiter) (h1 : 0 < rl.window_buckets)
    (h2 : rl.window_buckets ≤ WINDOW_BUCKETS_LIMITS rl.window)
    (h3 : rl.window = Window.second → rl.window_buckets = 1) :
    0 < _SECONDS_IN_WINDOW_SIZE rl.window / rl.window_buckets := by
  have hle : rl.window_buckets ≤ _SECONDS_IN_WINDOW_SIZE rl.window := by
    cases hwin : rl.window <;>
      rw [hwin] at h2 h3 <;>
      simp [WINDOW_BUCKETS_LIMITS, _SECONDS_IN_WINDOW_SIZE] at h2 h3 ⊢ <;>
      omega
  exact Nat.div_pos hle h1

/-- `first_bucket`, as computed by `_get_window_range`, abbreviated. -/
def firstBucket (now : Int) (rl : RateLimiter) : Int :=
  let spb := _SECONDS_IN_WINDOW_SIZE rl.window / rl.window_buckets
  (Int.fdiv now spb - (rl.window_buckets : Int) + 1) * spb

/-- `current_bucket`, as computed by `_get_window_range`, abbreviated. -/
def currentBucket (now : Int) (rl : RateLimiter) : Int :=
  let spb := _SECONDS_IN_WINDOW_SIZE rl.window / rl.window_buckets
  Int.fdiv now spb * spb

/-- For a well-formed limiter `_get_window_range` succeeds and returns
exactly the spec's four window quantities. -/
lemma get_window_range_ok (now : Int) (rl : RateLimiter) (h1 : 0 < rl.window_buckets)
    (h2 : rl.window_buckets ≤ WINDOW_BUCKETS_LIMITS rl.window)
    (h3 : rl.window = Window.second → rl.window_buckets = 1) :
    _get_window_range now rl =
      .ok { current_bucket := currentBucket now rl
            first_bucket := firstBucket now rl
            lifetime :=
              rl.window_buckets * (_SECONDS_IN_WINDOW_SIZE rl.window / rl.window_buckets) } := by
  have hspb := seconds_per_bucket_pos rl h1 h2 h3
  rw [_get_window_range, if_neg (by omega)]
  simp only []
  rw [if_neg (by omega)]
  rfl

lemma currentBucket_nonneg (now : Int) (rl : RateLimiter) (hnow : 0 ≤ now) :
    0 ≤ currentBucket now rl := by
  rw [currentBucket]
  have h1 : 0 ≤ Int.fdiv now (_SECONDS_IN_WINDOW_SIZE rl.window / rl.window_buckets) :=
    Int.fdiv_nonneg hnow (by positivity)
  positivity

lemma firstBucket_le_currentBucket (now : Int) (rl : RateLimiter)
    (h1 : 0 < rl.window_buckets) : firstBucket now rl ≤ currentBucket now rl := by
  rw [firstBucket, currentBucket]
  apply mul_le_mul_of_nonneg_right _ (by positivity)
  have : (1 : Int) ≤ (rl.window_buckets : Int) := by exact_mod_cast h1
  omega

/-! Evaluation lemmas for `_hit` / `is_limit_reached` over the in-memory
store, in the single-bucket situation of repeated hits at one fixed time. -/

/-- A `_hit` whose domain key currently holds the single current bucket with
`j` hits (or nothing, for `j = 0`): the counter advances to `j + 1` and the
verdict is `total_hits <= limit` with `total_hits = j + 1`. -/
lemma hit_step (rl : RateLimiter) (req : Request) (now : Int) (j : Nat)
    (st : ProcessState) (h1 : 0 < rl.window_buckets)
    (h2 : rl.window_buckets ≤ WINDOW_BUCKETS_LIMITS rl.window)
    (h3 : rl.window = Window.second → rl.window_buckets = 1) (hnow : 0 ≤ now)
    (hbump : bumpBucket ((alist.find st (_get_counter_domain_key rl req)).getD [])
        (toString (currentBucket now rl)) = [(toString (currentBucket now rl), j + 1)]) :
    _hit inMemory st now rl req =
      (decide (j + 1 ≤ rl.limit),
       alist.setKey st (_get_counter_domain_key rl req)
         [(toString (currentBucket now rl), j + 1)]) := by
  rw [_hit, get_window_range_ok now rl h1 h2 h3]
  simp only [inMemory, ProcessState.hit_and_collect_counters, hbump]
  have hparse : pyInt? (toString (currentBucket now rl)) = some (currentBucket now rl) :=
    pyInt_toString _ (currentBucket_nonneg now rl hnow)
  have hnotlt : ¬(currentBucket now rl < firstBucket now rl) :=
    not_lt.mpr (firstBucket_le_currentBucket now rl h1)
  rw [collectHits, hparse]
  simp only [collectHits, if_neg hnotlt]
  rw [ProcessState.expire_buckets]
  rw [alist.find_setKey_self]
  simp only [List.foldl]
  rw [if_neg (by simp)]
  rw [alist.setKey_setKey]
  simp [Nat.zero_add]

/-- `is_limit_reached` over a single matching limiter is the negation of its
`_hit` verdict on the `_hit` post-state. -/
lemma ilr_single (rl : RateLimiter) (req : Request) (now : Int) (st st' : ProcessState)
    (b : Bool) (hm : _match rl req = true)
    (hh : _hit inMemory st now rl req = (b, st')) :
    is_limit_reached inMemory st [rl] req now = (!b, st') := by
  rw [is_limit_reached]
  have hsort : List.insertionSort (fun a b => a.limit ≤ b.limit) [rl] = [rl] := rfl
  rw [hsort]
  simp only [hitAll, hm, if_pos, hh]
  cases b <;> simp [hitAll]

lemma bool_not_decide_le (a b : Nat) : (!decide (a ≤ b)) = decide (b < a) := by
  by_cases h : a ≤ b
  · simp [h, Nat.not_lt.mpr h]
  · simp [h, Nat.lt_of_not_le h]

/-- One `is_limit_reached` call over a single matching limiter, starting
from the canonical state after `j` hits at the same instant. -/
lemma ilr_state_step (rl : RateLimiter) (req : Request) (now : Int) (j : Nat)
    (h1 : 0 < rl.window_buckets)
    (h2 : rl.window_buckets ≤ WINDOW_BUCKETS_LIMITS rl.window)
    (h3 : rl.window = Window.second → rl.window_buckets = 1)
    (hm : _match rl req = true) (hnow : 0 ≤ now) :
    is_limit_reached inMemory
        (if j = 0 then []
         else [(_get_counter_domain_key rl req,
                [(toString (currentBucket now rl), j)])])
        [rl] req now
      = (decide (rl.limit < j + 1),
         [(_get_counter_domain_key rl req,
           [(toString (currentBucket now rl), j + 1)])]) := by
  set dk := _get_counter_domain_key rl req with hdk
  set bstr := toString (currentBucket now rl) with hbstr
  cases j with
  | zero =>
    rw [show (if 0 = 0 then ([] : ProcessState) else [(dk, [(bstr, 0)])]) = [] from rfl]
    have hbump : bumpBucket ((alist.find ([] : ProcessState) dk).getD []) bstr
        = [(bstr, 1)] := rfl
    have hh := hit_step rl req now 0 [] h1 h2 h3 hnow hbump
    have := ilr_single rl req now [] _ _ hm hh
    rw [this, bool_not_decide_le]
    rfl
  | succ j =>
    simp only [Nat.succ_ne_zero, if_neg, ite_false]
    have hfind : alist.find [(dk, [(bstr, j + 1)])] dk = some [(bstr, j + 1)] := by
      simp [alist.find]
    have hbump : bumpBucket ((alist.find [(dk, [(bstr, j + 1)])] dk).getD []) bstr
        = [(bstr, j + 1 + 1)] := by
      rw [hfind]
      simp [bumpBucket]
    have hh := hit_step rl req now (j + 1) [(dk, [(bstr, j + 1)])] h1 h2 h3 hnow hbump
    have hset : alist.setKey [(dk, [(bstr, j + 1)])] dk [(bstr, j + 1 + 1)]
        = [(dk, [(bstr, j + 1 + 1)])] := by
      simp [alist.setKey]
    rw [hset] at hh
    have := ilr_single rl req now [(dk, [(bstr, j + 1)])] _ _ hm hh
    rw [this, bool_not_decide_le]

/-- The canonical single-bucket state after `n` further calls. -/
lemma iter_state (rl : RateLimiter) (req : Request) (now : Int)
    (h1 : 0 < rl.window_buckets)
    (h2 : rl.window_buckets ≤ WINDOW_BUCKETS_LIMITS rl.window)
    (h3 : rl.window = Window.second → rl.window_buckets = 1)
    (hm : _match rl req = true) (hnow : 0 ≤ now) :
    ∀ n j : Nat,
      iterCalls inMemory [rl] req now n
          (if j = 0 then []
           else [(_get_counter_domain_key rl req,
                  [(toString (currentBucket now rl), j)])])
        = (if j + n = 0 then []
           else [(_get_counter_domain_key rl req,
                  [(toString (currentBucket now rl), j + n)])]) := by
  intro n
  induction n with
  | zero => intro j; rfl
  | succ n ih =>
    intro j
    rw [iterCalls]
    rw [ilr_state_step rl req now j h1 h2 h3 hm hnow]
    have := ih (j + 1)
    simp only [Nat.succ_ne_zero, if_neg, ite_false] at this ⊢
    rw [show j + 1 + n = j + (n + 1) by omega] at this
    simp only [show ¬(j + (n + 1) = 0) by omega, ite_false] at this ⊢
    exact this

/-! Shared concrete configurations used by the example parts of the claims. -/

/-- The spec's end-to-end example limiter
`{id="t", endpoint="/x", app=None, user_filter=false, limit=2, window=minute, window_buckets=1}`. -/
def rl_t : RateLimiter :=
  { id_or_name := "t", endpoint_name_filter := some "/x", app_name_filter := none
    user_filter := false, limit := 2, window := .minute, window_buckets := 1 }

/-- The spec's end-to-end example request `{app:"a1", user:"u1", endpoint:"/x"}`. -/
def req_x : Request := { app_id := "a1", user_id := "u1", endpoint := "/x" }

/-- Claim C1: for a single matching limiter over the in-memory store, `j + 1`
sequential calls at one fixed nonnegative time inside one bucket leave exactly
`j + 1` hits recorded in the current bucket of the limiter's domain key, and
the `(j + 1)`-th call observes `total_hits = j + 1`, returning limited
(`true`) iff `total_hits` strictly exceeds `limit`; hence calls `1..limit`
return `false` and every later call in the bucket returns `true`. -/
theorem C1_sequential_hits_within_bucket (rl : RateLimiter) (req : Request) (now : Int)
    (j : Nat) (h1 : 0 < rl.window_buckets)
    (h2 : rl.window_buckets ≤ WINDOW_BUCKETS_LIMITS rl.window)
    (h3 : rl.window = Window.second → rl.window_buckets = 1)
    (hm : _match rl req = true) (hnow : 0 ≤ now) :
    iterCalls inMemory [rl] req now (j + 1) []
      = [(_get_counter_domain_key rl req,
          [(toString (currentBucket now rl), j + 1)])] ∧
    (is_limit_reached inMemory (iterCalls inMemory [rl] req now j []) [rl] req now).1
      = decide (rl.limit < j + 1) := by
  have hiter := iter_state rl req now h1 h2 h3 hm hnow
  constructor
  · have h := hiter (j + 1) 0
    simp at h
    exact h
  · have h := hiter j 0
    simp at h
    rw [h, ilr_state_step rl req now j h1 h2 h3 hm hnow]

/-- Witness for C1 at the spec's end-to-end example: limiter `rl_t`
(limit 2, minute window) and request `req_x` at time 0 — the first and
second calls return "not limited", the third returns "limited". -/
theorem C1_sequential_hits_within_bucket_witness :
    (is_limit_reached inMemory (iterCalls inMemory [rl_t] req_x 0 0 []) [rl_t] req_x 0).1
        = false ∧
    (is_limit_reached inMemory (iterCalls inMemory [rl_t] req_x 0 1 []) [rl_t] req_x 0).1
        = false ∧
    (is_limit_reached inMemory (iterCalls inMemory [rl_t] req_x 0 2 []) [rl_t] req_x 0).1
        = true := by
  refine ⟨?_, ?_, ?_⟩
  · have h := (C1_sequential_hits_within_bucket rl_t req_x 0 0 (by decide) (by decide)
      (by decide) (by decide) (by decide)).2
    simpa using h
  · have h := (C1_sequential_hits_within_bucket rl_t req_x 0 1 (by decide) (by decide)
      (by decide) (by decide) (by decide)).2
    simpa using h
  · have h := (C1_sequential_hits_within_bucket rl_t req_x 0 2 (by decide) (by decide)
      (by decide) (by decide) (by decide)).2
    simpa using h

/-- Claim C4: for every time and every well-formed limiter configuration
(the bucket bounds `RateLimiter.__init__` establishes whenever the requested
count is positive), `_get_window_range` computes `seconds_per_bucket` as the
floor division of the window kind's total seconds by `window_buckets`,
`serial` as `floor(now / seconds_per_bucket)`, and the three returned fields
`serial * spb`, `(serial - window_buckets + 1) * spb`, `window_buckets * spb`;
the constant table is second=1, minute=60, hour=3600, day=86400,
month=30*86400, year=365*86400. -/
theorem C4_window_arithmetic (now : Int) (rl : RateLimiter)
    (h1 : 0 < rl.window_buckets)
    (h2 : rl.window_buckets ≤ WINDOW_BUCKETS_LIMITS rl.window)
    (h3 : rl.window = Window.second → rl.window_buckets = 1) :
    ∃ seconds_per_bucket serial,
      seconds_per_bucket = _SECONDS_IN_WINDOW_SIZE rl.window / rl.window_buckets ∧
      serial = Int.fdiv now (seconds_per_bucket : Int) ∧
      _get_window_range now rl = .ok
        { current_bucket := serial * seconds_per_bucket
          first_bucket := (serial - rl.window_buckets + 1) * seconds_per_bucket
          lifetime := rl.window_buckets * seconds_per_bucket } ∧
      _SECONDS_IN_WINDOW_SIZE .second = 1 ∧ _SECONDS_IN_WINDOW_SIZE .minute = 60 ∧
      _SECONDS_IN_WINDOW_SIZE .hour = 3600 ∧ _SECONDS_IN_WINDOW_SIZE .day = 86400 ∧
      _SECONDS_IN_WINDOW_SIZE .month = 30 * 86400 ∧
      _SECONDS_IN_WINDOW_SIZE .year = 365 * 86400 := by
  refine ⟨_, _, rfl, rfl, ?_, by decide, by decide, by decide, by decide, by decide, by decide⟩
  rw [get_window_range_ok now rl h1 h2 h3]
  rfl

/-- Witness for C4: the minute/1-bucket limiter `rl_t` at time 90 gets
`current_bucket = 60`, `first_bucket = 60`, `lifetime = 60`. -/
theorem C4_window_arithmetic_witness :
    _get_window_range 90 rl_t = .ok { current_bucket := 60, first_bucket := 60, lifetime := 60 } := by
  obtain ⟨spb, serial, hspb, hser, hok, _⟩ :=
    C4_window_arithmetic 90 rl_t (by decide) (by decide) (by decide)
  subst hspb
  subst hser
  rw [hok]
  rfl

/-- Counterexample for C3 as stated: a `"second"`-window limiter requested
with 61 buckets (strictly above the second window's tabulated maximum of 60)
is constructed without error — the forced normalization to 1 bucket happens
before the bound check, so the "any requested `window_buckets` exceeding that
kind's maximum must fail construction" part is false. -/
theorem C3_counterexample :
    RateLimiter.mk? "s" none none false 1 "second" 61
      = .ok { id_or_name := "s", endpoint_name_filter := none, app_name_filter := none
              user_filter := false, limit := 1, window := .second, window_buckets := 1 } := by
  decide

/-- Claim C3 (amended): construction fails iff the window string is
unrecognized or the *effective* bucket count (1 for a second window, the
requested value otherwise) exceeds the per-window maximum; equivalently, for
every window kind except `second`, a requested count above the maximum fails
and one at or below it succeeds, while a `second` window accepts any
requested count and forces `window_buckets = 1`. -/
theorem C3_construction_validation (id : String) (ep ap : Option String) (uf : Bool)
    (limit : Nat) (window : String) (wb : Nat) :
    ((∃ e, RateLimiter.mk? id ep ap uf limit window wb = .error e) ↔
       (Window.ofString? window = none ∨
        ∃ w, Window.ofString? window = some w ∧ ¬w = Window.second ∧
          WINDOW_BUCKETS_LIMITS w < wb)) ∧
    (∀ w, Window.ofString? window = some w →
      ((if w = Window.second then 1 else wb) ≤ WINDOW_BUCKETS_LIMITS w →
        RateLimiter.mk? id ep ap uf limit window wb
          = .ok { id_or_name := id, endpoint_name_filter := ep, app_name_filter := ap
                  user_filter := uf, limit := limit, window := w
                  window_buckets := if w = Window.second then 1 else wb })) := by
  constructor
  · cases hw : Window.ofString? window with
    | none =>
      simp only [RateLimiter.mk?, hw]
      constructor
      · intro _
        exact Or.inl trivial
      · intro _
        exact ⟨_, rfl⟩
    | some w =>
      simp only [RateLimiter.mk?, hw]
      by_cases hs : w = Window.second
      · subst hs
        simp only [if_true]
        rw [if_neg (by decide)]
        constructor
        · rintro ⟨e, he⟩
          cases he
        · rintro (h | ⟨w', hw', hs', _⟩)
          · cases h
          · cases hw'
            exact absurd rfl hs'
      · rw [if_neg hs]
        by_cases hgt : wb > WINDOW_BUCKETS_LIMITS w
        · rw [if_pos hgt]
          constructor
          · intro _
            exact Or.inr ⟨w, rfl, hs, hgt⟩
          · intro _
            exact ⟨_, rfl⟩
        · rw [if_neg hgt]
          constructor
          · rintro ⟨e, he⟩
            cases he
          · rintro (h | ⟨w', hw', _, hgt'⟩)
            · cases h
            · cases hw'
              exact absurd hgt' hgt
  · intro w hw hle
    simp only [RateLimiter.mk?, hw]
    by_cases hs : w = Window.second
    · subst hs
      simp only [if_true] at hle ⊢
      rw [if_neg (by decide)]
    · rw [if_neg hs] at hle
      rw [if_neg hs]
      rw [if_neg (by omega)]

/-- Witness for C3's amended characterization: a 61-bucket minute limiter
fails, an unrecognized window kind fails, and a 60-bucket minute limiter
succeeds. -/
theorem C3_construction_validation_witness :
    (∃ e, RateLimiter.mk? "x" none none false 5 "minute" 61 = .error e) ∧
    (∃ e, RateLimiter.mk? "x" none none false 5 "zzz" 1 = .error e) ∧
    RateLimiter.mk? "x" none none false 5 "minute" 60
      = .ok { id_or_name := "x", endpoint_name_filter := none, app_name_filter := none
              user_filter := false, limit := 5, window := .minute, window_buckets := 60 } := by
  refine ⟨?_, ?_, ?_⟩
  · exact (C3_construction_validation "x" none none false 5 "minute" 61).1.mpr
      (Or.inr ⟨.minute, rfl, by decide, by decide⟩)
  · exact (C3_construction_validation "x" none none false 5 "zzz" 1).1.mpr (Or.inl rfl)
  · have h := (C3_construction_validation "x" none none false 5 "minute" 60).2 .minute rfl
      (by decide)
    simpa using h

/-- The matching predicate exactly as the spec words it: a limiter matches
iff (its endpoint filter is unset OR equals the request's endpoint) AND (its
application filter is unset OR equals the request's application id), where
"unset" for an `Optional[str]` field means `None`. -/
def matchesSpec (rl : RateLimiter) (req : Request) : Prop :=
  (rl.endpoint_name_filter = none ∨ rl.endpoint_name_filter = some req.endpoint) ∧
  (rl.app_name_filter = none ∨ rl.app_name_filter = some req.app_id)

/-- The matching predicate the code actually implements: Python truthiness
also treats an *empty-string* filter as "no filter". -/
def matchesSpecAmended (rl : RateLimiter) (req : Request) : Prop :=
  (rl.endpoint_name_filter = none ∨ rl.endpoint_name_filter = some "" ∨
     rl.endpoint_name_filter = some req.endpoint) ∧
  (rl.app_name_filter = none ∨ rl.app_name_filter = some "" ∨
     rl.app_name_filter = some req.app_id)

/-- A limiter whose endpoint filter is the (falsy) empty string. -/
def rl_emptyfilter : RateLimiter :=
  { id_or_name := "e", endpoint_name_filter := some "", app_name_filter := none
    user_filter := false, limit := 1, window := .minute, window_buckets := 1 }

/-- A non-matching limiter for `req_x` (endpoint filter `"/y"`). -/
def rl_y : RateLimiter :=
  { id_or_name := "y", endpoint_name_filter := some "/y", app_name_filter := none
    user_filter := false, limit := 7, window := .minute, window_buckets := 1 }

/-- Counterexample for C7 as stated: a limiter with the *set* (but empty)
endpoint filter `some ""` matches a request for endpoint `"/x"`, although the
spec's predicate (filter unset or equal) is false there — Python truthiness
treats the empty string like an unset filter. -/
theorem C7_counterexample :
    _match rl_emptyfilter req_x = true ∧ ¬matchesSpec rl_emptyfilter req_x := by
  constructor
  · decide
  · rw [matchesSpec]
    decide

lemma filterBlocks_eq_false_iff (f : Option String) (x : String) :
    filterBlocks f x = false ↔ (f = none ∨ f = some "" ∨ f = some x) := by
  cases f with
  | none => simp [filterBlocks]
  | some v =>
    by_cases hv : v = ""
    · simp [filterBlocks, hv]
    · simp [filterBlocks, hv]

lemma match_eq_true_iff (rl : RateLimiter) (req : Request) :
    _match rl req = true ↔
      (filterBlocks rl.endpoint_name_filter req.endpoint = false ∧
       filterBlocks rl.app_name_filter req.app_id = false) := by
  rw [_match]
  cases h1 : filterBlocks rl.endpoint_name_filter req.endpoint <;>
    cases h2 : filterBlocks rl.app_name_filter req.app_id <;> simp

/-- Claim C7 (amended): `_match` holds iff each filter is unset, *empty*, or
equal to the request's corresponding field; the `user_filter` flag plays no
role in matching; and a non-matching limiter is skipped by the evaluation
loop, leaving the store state untouched. -/
theorem C7_matching_predicate (rl : RateLimiter) (req : Request) :
    (_match rl req = true ↔ matchesSpecAmended rl req) ∧
    (∀ uf : Bool, _match { rl with user_filter := uf } req = _match rl req) ∧
    (∀ (σ : Type) (S : IState σ) (st : σ) (now : Int) (rest : List RateLimiter),
      _match rl req = false →
        hitAll S st now req (rl :: rest) = hitAll S st now req rest) := by
  refine ⟨?_, ?_, ?_⟩
  · rw [match_eq_true_iff, matchesSpecAmended, filterBlocks_eq_false_iff,
      filterBlocks_eq_false_iff]
  · intro uf
    rcases rl with ⟨id, ep, ap, u, lim, w, wb⟩
    rfl
  · intro σ S st now rest hm
    simp [hitAll, hm]

/-- Witness for C7: concrete uses of all three parts — the amended predicate
holds for the end-to-end example pair, `user_filter` does not change the
match, and the non-matching limiter `rl_y` is skipped without touching the
store. -/
theorem C7_matching_predicate_witness :
    matchesSpecAmended rl_t req_x ∧
    _match { rl_t with user_filter := true } req_x = _match rl_t req_x ∧
    hitAll inMemory [] 0 req_x [rl_y] = hitAll inMemory [] 0 req_x [] := by
  refine ⟨?_, ?_, ?_⟩
  · exact (C7_matching_predicate rl_t req_x).1.mp (by decide)
  · exact (C7_matching_predicate rl_t req_x).2.1 true
  · exact (C7_matching_predicate rl_y req_x).2.2 ProcessState inMemory [] 0 [] (by decide)

lemma hitAll_no_matching {σ : Type} (S : IState σ) (st : σ) (now : Int) (req : Request)
    (ls : List RateLimiter) (h : ∀ rl ∈ ls, _match rl req = false) :
    hitAll S st now req ls = (true, st) := by
  induction ls with
  | nil => rfl
  | cons rl rest ih =>
    rw [hitAll, if_neg (by rw [h rl (by simp)]; simp)]
    exact ih (fun x hx => h x (by simp [hx]))

/-- Claim C10: with no limiters, or none matching the request,
`is_limit_reached` allows the request and performs no store operation (the
state is returned unchanged, for any store whatsoever). -/
theorem C10_no_matching_limiter (σ : Type) (S : IState σ) (st : σ)
    (ls : List RateLimiter) (req : Request) (now : Int)
    (h : ∀ rl ∈ ls, _match rl req = false) :
    is_limit_reached S st ls req now = (false, st) := by
  rw [is_limit_reached]
  have hmem : ∀ rl ∈ List.insertionSort (fun a b => a.limit ≤ b.limit) ls,
      _match rl req = false :=
    fun rl hrl => h rl ((List.perm_insertionSort _ ls).mem_iff.mp hrl)
  simp only [hitAll_no_matching S st now req _ hmem]
  rfl

/-- Witness for C10: the empty limiter list, and the single non-matching
limiter `rl_y`, both allow `req_x` and leave the empty in-memory store
empty. -/
theorem C10_no_matching_limiter_witness :
    is_limit_reached inMemory [] [] req_x 0 = (false, []) ∧
    is_limit_reached inMemory [] [rl_y] req_x 0 = (false, []) := by
  constructor
  · exact C10_no_matching_limiter ProcessState inMemory [] [] req_x 0
      (fun rl hrl => absurd hrl (List.not_mem_nil rl))
  · exact C10_no_matching_limiter ProcessState inMemory [] [rl_y] req_x 0
      (fun rl hrl => by rw [List.mem_singleton.mp hrl]; decide)

/-- A store whose increment-and-read always raises (e.g. an unreachable
backing service); `expire_buckets` succeeds trivially. -/
def failStore : IState Unit :=
  { hit_and_collect_counters := fun _ _ _ => (.error "ConnectionError", ())
    expire_buckets := fun st _ _ => (.ok (), st) }

/-- A store returning a bucket id that `Timestamp(bucket)` cannot parse. -/
def badBucketStore : IState Unit :=
  { hit_and_collect_counters := fun st _ _ => (.ok [("not-a-timestamp", 1)], st)
    expire_buckets := fun st _ _ => (.ok (), st) }

/-- Claim C5: a raising store call makes that limiter's `_hit` evaluate to
"within limit" (`true`, fail-open) with the error swallowed rather than
propagated, the remaining limiters are still evaluated from the post-error
state, and the public entry point returns normally (`false` = not limited
when the failing limiter is the only one); an unparsable bucket id follows
the same fail-open path. -/
theorem C5_fail_open (σ : Type) (S : IState σ) (st st' : σ) (e : String)
    (rl : RateLimiter) (req : Request) (now : Int) (rest : List RateLimiter)
    (wr : WindowRange) (hwr : _get_window_range now rl = .ok wr)
    (hfail : S.hit_and_collect_counters st (_get_counter_domain_key rl req) wr
        = (.error e, st'))
    (hm : _match rl req = true) :
    _hit S st now rl req = (true, st') ∧
    hitAll S st now req (rl :: rest) = hitAll S st' now req rest ∧
    is_limit_reached S st [rl] req now = (false, st') ∧
    (∀ (σ₂ : Type) (S₂ : IState σ₂) (st₂ st₂' : σ₂) (counters : Buckets) (e₂ : String),
      S₂.hit_and_collect_counters st₂ (_get_counter_domain_key rl req) wr
          = (.ok counters, st₂') →
      collectHits wr.first_bucket counters = .error e₂ →
      _hit S₂ st₂ now rl req = (true, st₂')) := by
  have hh : _hit S st now rl req = (true, st') := by
    simp only [_hit, hwr, hfail]
  refine ⟨hh, ?_, ?_, ?_⟩
  · simp [hitAll, hm, hh]
  · rw [is_limit_reached]
    have hsort : List.insertionSort (fun a b => a.limit ≤ b.limit) [rl] = [rl] := rfl
    rw [hsort]
    simp only [hitAll, hm, if_pos, hh]
    rfl
  · intro σ₂ S₂ st₂ st₂' counters e₂ hok hbad
    simp only [_hit, hwr, hok, hbad]

/-- Witness for C5: a minute-window limiter against the always-raising store
and against the store emitting an unparsable bucket id — every path returns
"not limited" and the public entry point returns normally. -/
theorem C5_fail_open_witness :
    _hit failStore () 0 rl_t req_x = (true, ()) ∧
    hitAll failStore () 0 req_x [rl_t] = hitAll failStore () 0 req_x [] ∧
    is_limit_reached failStore () [rl_t] req_x 0 = (false, ()) ∧
    _hit badBucketStore () 0 rl_t req_x = (true, ()) := by
  have h := C5_fail_open Unit failStore () () "ConnectionError" rl_t req_x 0 []
    { current_bucket := 0, first_bucket := 0, lifetime := 60 } (by decide) rfl (by decide)
  exact ⟨h.1, h.2.1, h.2.2.1,
    h.2.2.2 Unit badBucketStore () () [("not-a-timestamp", 1)] _ rfl rfl⟩

instance : IsTotal RateLimiter (fun a b => a.limit ≤ b.limit) :=
  ⟨fun a b => Nat.le_total a.limit b.limit⟩

instance : IsTrans RateLimiter (fun a b => a.limit ≤ b.limit) :=
  ⟨fun _ _ _ hab hbc => Nat.le_trans hab hbc⟩

/-- The spec's tighter 5-per-minute limiter on endpoint `"/x"`. -/
def rl_A5 : RateLimiter :=
  { id_or_name := "A", endpoint_name_filter := some "/x", app_name_filter := none
    user_filter := false, limit := 5, window := .minute, window_buckets := 1 }

/-- The spec's looser 50-per-minute limiter on the same endpoint. -/
def rl_B50 : RateLimiter :=
  { id_or_name := "B", endpoint_name_filter := some "/x", app_name_filter := none
    user_filter := false, limit := 50, window := .minute, window_buckets := 1 }

/-- Claim C2: `is_limit_reached` evaluates the limiters sorted ascending by
`limit` (a sorted permutation of the input), returns "limited" iff the lazy
conjunction over them fails, and stops at the first limiter found exceeded,
so later limiters are neither read nor incremented; concretely, a burst of 6
identical requests against limiters with limits 5 and 50 (given looser
first) passes calls 1–5, is rejected exactly at call 6 by the limit-5
limiter, and the limit-50 limiter's counter stays at 5 after that call. -/
theorem C2_ascending_order_short_circuit (σ : Type) (S : IState σ) (st st' : σ)
    (ls rest : List RateLimiter) (rl : RateLimiter) (req : Request) (now : Int)
    (hm : _match rl req = true) (hh : _hit S st now rl req = (false, st')) :
    (is_limit_reached S st ls req now
       = (!(hitAll S st now req (List.insertionSort (fun a b => a.limit ≤ b.limit) ls)).1,
          (hitAll S st now req (List.insertionSort (fun a b => a.limit ≤ b.limit) ls)).2)) ∧
    List.Sorted (fun a b => a.limit ≤ b.limit)
      (List.insertionSort (fun a b => a.limit ≤ b.limit) ls) ∧
    (List.insertionSort (fun a b => a.limit ≤ b.limit) ls).Perm ls ∧
    hitAll S st now req (rl :: rest) = (false, st') ∧
    (∀ i : Nat, i < 5 →
      (is_limit_reached inMemory (iterCalls inMemory [rl_B50, rl_A5] req_x 0 i [])
          [rl_B50, rl_A5] req_x 0).1 = false) ∧
    (is_limit_reached inMemory (iterCalls inMemory [rl_B50, rl_A5] req_x 0 5 [])
        [rl_B50, rl_A5] req_x 0).1 = true ∧
    iterCalls inMemory [rl_B50, rl_A5] req_x 0 6 []
      = [("LIMIT:A:~anyapp:/x:~anyuser", [("0", 6)]),
         ("LIMIT:B:~anyapp:/x:~anyuser", [("0", 5)])] := by
  refine ⟨rfl, List.sorted_insertionSort _ ls, List.perm_insertionSort _ ls,
    ?_, ?_, by decide, by decide⟩
  · simp [hitAll, hm, hh]
  · intro i hi
    interval_cases i <;> decide

/-- Witness for C2: at the state reached after 5 bursts, hitting the sorted
pair rejects at the tighter limiter and leaves the looser limiter's counter
untouched; call 4 of the burst (index 3) is still allowed. -/
theorem C2_ascending_order_short_circuit_witness :
    hitAll inMemory
        [("LIMIT:A:~anyapp:/x:~anyuser", [("0", 5)]),
         ("LIMIT:B:~anyapp:/x:~anyuser", [("0", 5)])] 0 req_x [rl_A5, rl_B50]
      = (false,
         [("LIMIT:A:~anyapp:/x:~anyuser", [("0", 6)]),
          ("LIMIT:B:~anyapp:/x:~anyuser", [("0", 5)])]) ∧
    (is_limit_reached inMemory (iterCalls inMemory [rl_B50, rl_A5] req_x 0 3 [])
        [rl_B50, rl_A5] req_x 0).1 = false := by
  have h := C2_ascending_order_short_circuit ProcessState inMemory
    [("LIMIT:A:~anyapp:/x:~anyuser", [("0", 5)]),
     ("LIMIT:B:~anyapp:/x:~anyuser", [("0", 5)])]
    [("LIMIT:A:~anyapp:/x:~anyuser", [("0", 6)]),
     ("LIMIT:B:~anyapp:/x:~anyuser", [("0", 5)])]
    [] [rl_B50] rl_A5 req_x 0 (by decide) (by decide)
  exact ⟨h.2.2.2.1, h.2.2.2.2.1 3 (by decide)⟩

/-! Frame lemmas: a hit against one limiter touches only that limiter's own
domain key in the in-memory store. -/

lemma hit_frame (rl : RateLimiter) (req : Request) (now : Int) (st : ProcessState)
    (k : String) (hk : k ≠ _get_counter_domain_key rl req) :
    alist.find ((_hit inMemory st now rl req).2) k = alist.find st k := by
  rw [_hit]
  cases hw : _get_window_range now rl with
  | error e => rfl
  | ok wr =>
    simp only [inMemory, ProcessState.hit_and_collect_counters]
    cases hc : collectHits wr.first_bucket
        (bumpBucket ((alist.find st (_get_counter_domain_key rl req)).getD [])
          (toString wr.current_bucket)) with
    | error e =>
      simp only [alist.find_setKey_ne st _ k _ hk]
    | ok p =>
      obtain ⟨total, expired⟩ := p
      simp only [ProcessState.expire_buckets, alist.find_setKey_self]
      rw [if_neg (bumpBucket_ne_nil _ _)]
      simp only [alist.setKey_setKey]
      simp only [alist.find_setKey_ne st _ k _ hk]

lemma ilr_single_frame (rl : RateLimiter) (req : Request) (now : Int) (st : ProcessState)
    (k : String) (hk : k ≠ _get_counter_domain_key rl req) :
    alist.find ((is_limit_reached inMemory st [rl] req now).2) k = alist.find st k := by
  rw [is_limit_reached]
  have hsort : List.insertionSort (fun a b => a.limit ≤ b.limit) [rl] = [rl] := rfl
  rw [hsort]
  simp only [hitAll]
  by_cases hm : _match rl req
  · rw [if_pos hm]
    have hframe := hit_frame rl req now st k hk
    cases hh : _hit inMemory st now rl req with
    | mk b st' =>
      rw [hh] at hframe
      cases b <;> simpa [hitAll] using hframe
  · rw [if_neg hm]

lemma iter_single_frame (rl : RateLimiter) (req : Request) (now : Int) (k : String)
    (hk : k ≠ _get_counter_domain_key rl req) :
    ∀ (n : Nat) (st : ProcessState),
      alist.find (iterCalls inMemory [rl] req now n st) k = alist.find st k := by
  intro n
  induction n with
  | zero => intro st; rfl
  | succ n ih =>
    intro st
    rw [iterCalls]
    rw [ih ((is_limit_reached inMemory st [rl] req now).2)]
    exact ilr_single_frame rl req now st k hk

lemma string_eq_of_data_eq (s t : String) (h : s.data = t.data) : s = t := by
  cases s
  cases t
  exact congrArg String.mk h

/-- Two limiters that differ only in `id_or_name` always get distinct domain
keys: the id sits between fixed delimiters and identical suffixes, so the
keys are equal only if the ids are. -/
lemma domain_key_ne (rl1 rl2 : RateLimiter) (req : Request)
    (hid : rl1.id_or_name ≠ rl2.id_or_name)
    (hep : rl1.endpoint_name_filter = rl2.endpoint_name_filter)
    (hap : rl1.app_name_filter = rl2.app_name_filter)
    (huf : rl1.user_filter = rl2.user_filter) :
    _get_counter_domain_key rl1 req ≠ _get_counter_domain_key rl2 req := by
  intro hkey
  apply hid
  rw [_get_counter_domain_key, _get_counter_domain_key] at hkey
  simp only [hep, hap, huf] at hkey
  have hdata := congrArg String.data hkey
  simp only [String.data_append, List.append_assoc] at hdata
  have h1 := List.append_cancel_left hdata
  have h2 := List.append_cancel_right h1
  exact string_eq_of_data_eq _ _ h2

/-- The spec's per-user limiter: `user_filter=true`, limit 1, minute window. -/
def rl_u : RateLimiter :=
  { id_or_name := "u", endpoint_name_filter := some "/x", app_name_filter := none
    user_filter := true, limit := 1, window := .minute, window_buckets := 1 }

/-- Request by user `"A"`. -/
def req_uA : Request := { app_id := "a1", user_id := "A", endpoint := "/x" }

/-- Request by user `"B"`. -/
def req_uB : Request := { app_id := "a1", user_id := "B", endpoint := "/x" }

/-- `rl_t` with a different `id_or_name` and otherwise identical filters. -/
def rl_t2 : RateLimiter :=
  { id_or_name := "t2", endpoint_name_filter := some "/x", app_name_filter := none
    user_filter := false, limit := 2, window := .minute, window_buckets := 1 }

/-- Claim C6: hits against one limiter mutate only its own domain key — two
limiters differing only in `id_or_name` have distinct domain keys, so any
number of calls against the first leaves the second's counters absent (count
0); and a `user_filter=true` limiter with limit 1 keys per user: user "A"
then user "B" in the same window are both allowed (each user's counter at
1), while "A" twice is rejected on the second call. -/
theorem C6_domain_key_isolation (rl1 rl2 : RateLimiter) (req : Request) (now : Int)
    (n : Nat) (hid : rl1.id_or_name ≠ rl2.id_or_name)
    (hep : rl1.endpoint_name_filter = rl2.endpoint_name_filter)
    (hap : rl1.app_name_filter = rl2.app_name_filter)
    (huf : rl1.user_filter = rl2.user_filter) :
    _get_counter_domain_key rl1 req ≠ _get_counter_domain_key rl2 req ∧
    alist.find (iterCalls inMemory [rl1] req now n [])
        (_get_counter_domain_key rl2 req) = none ∧
    (is_limit_reached inMemory [] [rl_u] req_uA 0).1 = false ∧
    (is_limit_reached inMemory ((is_limit_reached inMemory [] [rl_u] req_uA 0).2)
        [rl_u] req_uB 0)
      = (false, [("LIMIT:u:~anyapp:/x:A", [("0", 1)]),
                 ("LIMIT:u:~anyapp:/x:B", [("0", 1)])]) ∧
    (is_limit_reached inMemory ((is_limit_reached inMemory [] [rl_u] req_uA 0).2)
        [rl_u] req_uA 0).1 = true := by
  have hne := domain_key_ne rl1 rl2 req hid hep hap huf
  refine ⟨hne, ?_, by decide, by decide, by decide⟩
  rw [iter_single_frame rl1 req now _ (Ne.symm hne) n []]
  rfl

/-- Witness for C6: limiters `rl_t` and `rl_t2` (ids `"t"` vs `"t2"`, same
filters) — distinct domain keys, and 100 calls against `rl_t` leave `rl_t2`'s
domain key absent from the store. -/
theorem C6_domain_key_isolation_witness :
    _get_counter_domain_key rl_t req_x ≠ _get_counter_domain_key rl_t2 req_x ∧
    alist.find (iterCalls inMemory [rl_t] req_x 0 100 [])
        (_get_counter_domain_key rl_t2 req_x) = none := by
  have h := C6_domain_key_isolation rl_t rl_t2 req_x 0 100 (by decide) rfl rfl rfl
  exact ⟨h.1, h.2.1⟩

lemma hdel_noop (st : RedisHashes) (dk b : String)
    (h : ∀ db, alist.find st dk = some db → alist.find db b = none) :
    RedisHashes.hdel st dk b = st := by
  cases hf : alist.find st dk with
  | none => simp [RedisHashes.hdel, hf]
  | some db =>
    simp only [RedisHashes.hdel, hf]
    rw [alist.delKey_absent db b (h db hf)]
    exact alist.setKey_self st dk db hf

lemma foldl_hdel_noop (bs : List String) (st : RedisHashes) (dk : String)
    (h : ∀ b ∈ bs, ∀ db, alist.find st dk = some db → alist.find db b = none) :
    bs.foldl (fun s b => RedisHashes.hdel s dk b) st = st := by
  induction bs with
  | nil => rfl
  | cons b rest ih =>
    have hb : RedisHashes.hdel st dk b = st := hdel_noop st dk b (h b (by simp))
    simp only [List.foldl, hb]
    exact ih (fun x hx => h x (by simp [hx]))

/-- Claim C8: for both store variants, `expire_buckets` with an empty bucket
list, or with bucket ids absent under the domain key (including an absent
domain key, since the hypothesis is vacuous then), raises no error and leaves
the state unchanged; an existing named bucket is removed. -/
theorem C8_expire_buckets_noop (st : ProcessState) (dk : String) (bs : List String)
    (db : Buckets) (b : String) (v : Nat) :
    (ProcessState.expire_buckets st dk [] = (.ok (), st)) ∧
    ((∀ b' ∈ bs, ∀ db', alist.find st dk = some db' → alist.find db' b' = none) →
      ProcessState.expire_buckets st dk bs = (.ok (), st)) ∧
    (alist.find st dk = some db → alist.find db b = some v → (db.map Prod.fst).Nodup →
      ∃ db', alist.find ((ProcessState.expire_buckets st dk [b]).2) dk = some db' ∧
        alist.find db' b = none) ∧
    (RedisState.expire_buckets st dk [] = (.ok (), st)) ∧
    ((∀ b' ∈ bs, ∀ db', alist.find st dk = some db' → alist.find db' b' = none) →
      RedisState.expire_buckets st dk bs = (.ok (), st)) ∧
    (alist.find st dk = some db → alist.find db b = some v → (db.map Prod.fst).Nodup →
      ∃ db', alist.find ((RedisState.expire_buckets st dk [b]).2) dk = some db' ∧
        alist.find db' b = none) := by
  refine ⟨?_, ?_, ?_, ?_, ?_, ?_⟩
  · cases hf : alist.find st dk with
    | none => simp [ProcessState.expire_buckets, hf]
    | some db' =>
      simp only [ProcessState.expire_buckets, hf]
      by_cases hnil : db' = []
      · rw [if_pos hnil]
      · rw [if_neg hnil]
        simp only [List.foldl]
        rw [alist.setKey_self st dk db' hf]
  · intro h
    cases hf : alist.find st dk with
    | none => simp [ProcessState.expire_buckets, hf]
    | some db' =>
      simp only [ProcessState.expire_buckets, hf]
      by_cases hnil : db' = []
      · rw [if_pos hnil]
      · rw [if_neg hnil]
        rw [foldl_delKey_absent bs db' (fun b' hb' => h b' hb' db' hf)]
        rw [alist.setKey_self st dk db' hf]
  · intro hf hb hnd
    have hnil : db ≠ [] := by
      intro hcontra
      rw [hcontra] at hb
      cases hb
    simp only [ProcessState.expire_buckets, hf]
    rw [if_neg hnil]
    refine ⟨alist.delKey db b, ?_, alist.find_delKey_self db b hnd⟩
    simp only [List.foldl]
    exact alist.find_setKey_self st dk (alist.delKey db b)
  · rw [RedisState.expire_buckets, if_pos rfl]
  · intro h
    rw [RedisState.expire_buckets]
    by_cases hbs : bs = []
    · rw [if_pos hbs]
    · rw [if_neg hbs, foldl_hdel_noop bs st dk h]
  · intro hf hb hnd
    rw [RedisState.expire_buckets, if_neg (by simp)]
    simp only [List.foldl, RedisHashes.hdel, hf]
    exact ⟨alist.delKey db b, alist.find_setKey_self st dk (alist.delKey db b),
      alist.find_delKey_self db b hnd⟩

/-- Witness for C8: a one-key store — the empty list and an unknown id are
no-ops for both variants, and expiring the present bucket `"0"` removes it. -/
theorem C8_expire_buckets_noop_witness :
    (ProcessState.expire_buckets [("k", [("0", 2)])] "k" [] = (.ok (), [("k", [("0", 2)])])) ∧
    (ProcessState.expire_buckets [("k", [("0", 2)])] "k" ["zz"]
      = (.ok (), [("k", [("0", 2)])])) ∧
    (ProcessState.expire_buckets [("k", [("0", 2)])] "nosuch" ["zz"]
      = (.ok (), [("k", [("0", 2)])])) ∧
    (∃ db', alist.find ((ProcessState.expire_buckets [("k", [("0", 2)])] "k" ["0"]).2) "k"
        = some db' ∧ alist.find db' "0" = none) ∧
    (RedisState.expire_buckets [("k", [("0", 2)])] "k" ["zz"]
      = (.ok (), [("k", [("0", 2)])])) ∧
    (∃ db', alist.find ((RedisState.expire_buckets [("k", [("0", 2)])] "k" ["0"]).2) "k"
        = some db' ∧ alist.find db' "0" = none) := by
  have h1 := C8_expire_buckets_noop [("k", [("0", 2)])] "k" ["zz"] [("0", 2)] "0" 2
  have h2 := C8_expire_buckets_noop [("k", [("0", 2)])] "nosuch" ["zz"] [("0", 2)] "0" 2
  refine ⟨h1.1, ?_, ?_, ?_, ?_, ?_⟩
  · exact h1.2.1 (by decide)
  · exact h2.2.1 (by decide)
  · exact h1.2.2.1 (by decide) (by decide) (by decide)
  · exact h1.2.2.2.2.1 (by decide)
  · exact h1.2.2.2.2.2 (by decide) (by decide) (by decide)
